import Mathlib

/-!
Verification of the directory/identity service (relational revision:
`database.py`, `models/*.py`, `routes/*.py`, `db_init.py`).

The SQLite store is embedded as explicit lists of rows; each repository
operation is a pure function on that state.  A statement that raises in
Python is modelled with `Except`: `.error` means the operation raised after
rolling back its own transaction, so the caller observes the pre-call state.
External libraries (`bcrypt`, `json`) are abstracted as structures carrying
their documented contracts, and concrete instances are provided so every
theorem is exercised on closed inputs.
-/

namespace DirSvc

/-! ### String helpers

`pyStrip` models Python's `str.strip()` (all ASCII whitespace);
`sqlNonBlank` models SQLite's `CHECK(length(trim(x)) > 0)` — SQLite `trim`
removes spaces, and the trimmed string has positive length iff some
character is not a space.  `startsWithDollar2` models
`stored_password.startswith('$2')`. -/

def isPySpace (c : Char) : Bool :=
  c == ' ' || c == '\t' || c == '\n' || c == '\r' || c == '\x0b' || c == '\x0c'

def pyStrip (s : String) : String :=
  String.mk (((s.toList.dropWhile isPySpace).reverse.dropWhile isPySpace).reverse)

def sqlNonBlank (s : String) : Bool :=
  s.toList.any (fun c => !(c == ' '))

def startsWithDollar2 (s : String) : Bool :=
  match s.toList with
  | c1 :: c2 :: _ => c1 == '$' && c2 == '2'
  | _ => false

/-! ### Rows and database state (schema of `database.py`) -/

structure DomainRow where
  id : String
  name : String
  description : String
  isDefault : Bool
deriving DecidableEq, Repr

structure UserRow where
  id : String
  username : String
  password : String
  firstName : String
  lastName : String
  displayName : String
  domainId : String
  isActive : Bool
deriving DecidableEq, Repr

structure EmailRow where
  id : String
  userId : String
  email : String
  isPrimary : Bool
  isVerified : Bool
deriving DecidableEq, Repr

structure PropRow where
  id : String
  userId : String
  key : String
  value : String
deriving DecidableEq, Repr

structure RoleRow where
  id : String
  name : String
  description : String
deriving DecidableEq, Repr

structure UserRoleRow where
  id : String
  userId : String
  roleId : String
deriving DecidableEq, Repr

structure GroupRow where
  id : String
  name : String
  description : String
  domainId : String
deriving DecidableEq, Repr

structure UserGroupRow where
  id : String
  userId : String
  groupId : String
deriving DecidableEq, Repr

structure AuditRow where
  id : String
  entityType : String
  entityId : String
  action : String
  changes : Option String
deriving DecidableEq, Repr

/-- The nine tables created by `Database._initialize_schema`.  Row order in
each list is insertion order (`created_at` order). -/
structure DB where
  domains : List DomainRow
  users : List UserRow
  userEmails : List EmailRow
  userProps : List PropRow
  roles : List RoleRow
  userRoles : List UserRoleRow
  groups : List GroupRow
  userGroups : List UserGroupRow
  auditLogs : List AuditRow
deriving DecidableEq, Repr

def emptyDB : DB :=
  { domains := [], users := [], userEmails := [], userProps := [], roles := [],
    userRoles := [], groups := [], userGroups := [], auditLogs := [] }

/-- Error classes raised by the storage layer.  The route layer inspects the
message text for the substrings `unique`/`constraint`
(`routes/groups.py`), which all three constraint kinds contain. -/
inductive DbErr where
  | uniqueViolation (info : String)
  | fkViolation
  | checkViolation (info : String)
  | storage (msg : String)
deriving DecidableEq, Repr

/-- `'unique' in error_msg or 'constraint' in error_msg` — true exactly for
the three SQLite integrity error messages, false for storage errors. -/
def DbErr.isConstraint : DbErr → Bool
  | .uniqueViolation _ => true
  | .fkViolation => true
  | .checkViolation _ => true
  | .storage _ => false

/-! ### Raw SQLite inserts/deletes with their schema constraints.
`.error` means the statement raised `sqlite3.IntegrityError` (the enclosing
transaction is rolled back by the caller, so on error the visible state is
the argument `db`). -/

def insertDomain (db : DB) (r : DomainRow) : Except DbErr DB :=
  if (db.domains.find? (fun d => d.id == r.id)).isSome then
    .error (.uniqueViolation "domains.id")
  else if (db.domains.find? (fun d => d.name == r.name)).isSome then
    .error (.uniqueViolation "domains.name")
  else if !sqlNonBlank r.name then
    .error (.checkViolation "domains.name")
  else
    .ok { db with domains := db.domains ++ [r] }

def insertUser (db : DB) (r : UserRow) : Except DbErr DB :=
  if (db.users.find? (fun u => u.id == r.id)).isSome then
    .error (.uniqueViolation "users.id")
  else if (db.users.find? (fun u => u.username == r.username)).isSome then
    .error (.uniqueViolation "users.username")
  else if !sqlNonBlank r.username then
    .error (.checkViolation "users.username")
  else if !sqlNonBlank r.password then
    .error (.checkViolation "users.password")
  else if (db.domains.find? (fun d => d.id == r.domainId)).isNone then
    .error .fkViolation
  else
    .ok { db with users := db.users ++ [r] }

def insertEmail (db : DB) (r : EmailRow) : Except DbErr DB :=
  if (db.userEmails.find? (fun e => e.id == r.id)).isSome then
    .error (.uniqueViolation "user_emails.id")
  else if (db.userEmails.find? (fun e => e.email == r.email)).isSome then
    .error (.uniqueViolation "user_emails.email")
  else if !sqlNonBlank r.email then
    .error (.checkViolation "user_emails.email")
  else if (db.users.find? (fun u => u.id == r.userId)).isNone then
    .error .fkViolation
  else
    .ok { db with userEmails := db.userEmails ++ [r] }

def insertProp (db : DB) (r : PropRow) : Except DbErr DB :=
  if (db.userProps.find? (fun p => p.id == r.id)).isSome then
    .error (.uniqueViolation "user_properties.id")
  else if (db.userProps.find? (fun p => p.userId == r.userId && p.key == r.key)).isSome then
    .error (.uniqueViolation "user_properties.user_id, user_properties.key")
  else if (db.users.find? (fun u => u.id == r.userId)).isNone then
    .error .fkViolation
  else
    .ok { db with userProps := db.userProps ++ [r] }

def insertRole (db : DB) (r : RoleRow) : Except DbErr DB :=
  if (db.roles.find? (fun x => x.id == r.id)).isSome then
    .error (.uniqueViolation "roles.id")
  else if (db.roles.find? (fun x => x.name == r.name)).isSome then
    .error (.uniqueViolation "roles.name")
  else if !sqlNonBlank r.name then
    .error (.checkViolation "roles.name")
  else
    .ok { db with roles := db.roles ++ [r] }

def insertUserRole (db : DB) (r : UserRoleRow) : Except DbErr DB :=
  if (db.userRoles.find? (fun x => x.id == r.id)).isSome then
    .error (.uniqueViolation "user_roles.id")
  else if (db.userRoles.find? (fun x => x.userId == r.userId && x.roleId == r.roleId)).isSome then
    .error (.uniqueViolation "user_roles.user_id, user_roles.role_id")
  else if (db.users.find? (fun u => u.id == r.userId)).isNone then
    .error .fkViolation
  else if (db.roles.find? (fun x => x.id == r.roleId)).isNone then
    .error .fkViolation
  else
    .ok { db with userRoles := db.userRoles ++ [r] }

def insertGroup (db : DB) (r : GroupRow) : Except DbErr DB :=
  if (db.groups.find? (fun g => g.id == r.id)).isSome then
    .error (.uniqueViolation "groups.id")
  else if (db.groups.find? (fun g => g.name == r.name && g.domainId == r.domainId)).isSome then
    .error (.uniqueViolation "groups.name, groups.domain_id")
  else if !sqlNonBlank r.name then
    .error (.checkViolation "groups.name")
  else if (db.domains.find? (fun d => d.id == r.domainId)).isNone then
    .error .fkViolation
  else
    .ok { db with groups := db.groups ++ [r] }

def insertUserGroup (db : DB) (r : UserGroupRow) : Except DbErr DB :=
  if (db.userGroups.find? (fun x => x.id == r.id)).isSome then
    .error (.uniqueViolation "user_groups.id")
  else if (db.userGroups.find? (fun x => x.userId == r.userId && x.groupId == r.groupId)).isSome then
    .error (.uniqueViolation "user_groups.user_id, user_groups.group_id")
  else if (db.users.find? (fun u => u.id == r.userId)).isNone then
    .error .fkViolation
  else if (db.groups.find? (fun g => g.id == r.groupId)).isNone then
    .error .fkViolation
  else
    .ok { db with userGroups := db.userGroups ++ [r] }

/-- Insert into `audit_logs`; `storageOk = false` models the underlying
store being unwritable for this statement. -/
def insertAudit (db : DB) (r : AuditRow) (storageOk : Bool) : Except DbErr DB :=
  if !storageOk then
    .error (.storage "disk I/O error")
  else if (db.auditLogs.find? (fun a => a.id == r.id)).isSome then
    .error (.uniqueViolation "audit_logs.id")
  else
    .ok { db with auditLogs := db.auditLogs ++ [r] }

/-! ### Repository layer (`models/*.py`)

Each mutating method wraps its statements in try/commit/except-rollback; on
`.error` the visible state is the pre-call state. -/

/-- `Domain.create` (`models/domain.py`). -/
def domainCreate (db : DB) (domainId name description : String) (isDefault : Bool) :
    Except DbErr DB :=
  insertDomain db { id := domainId, name := name, description := description,
                    isDefault := isDefault }

/-- `Domain.get_by_name`. -/
def domainGetByName (db : DB) (name : String) : Option DomainRow :=
  db.domains.find? (fun d => d.name == name)

/-- `Domain.delete`: `DELETE FROM domains WHERE id = ?`.  With
`PRAGMA foreign_keys = ON`, `users.domain_id ... ON DELETE RESTRICT` aborts
the delete while the domain still owns users, and
`groups.domain_id ... ON DELETE CASCADE` (and in turn
`user_groups.group_id ... ON DELETE CASCADE`) removes dependent groups. -/
def domainDelete (db : DB) (domainId : String) : Except DbErr DB :=
  if (db.domains.find? (fun d => d.id == domainId)).isSome
      && (db.users.find? (fun u => u.domainId == domainId)).isSome then
    .error .fkViolation
  else
    let removedGroupIds := (db.groups.filter (fun g => g.domainId == domainId)).map (·.id)
    .ok { db with
      domains := db.domains.filter (fun d => !(d.id == domainId)),
      groups := db.groups.filter (fun g => !(g.domainId == domainId)),
      userGroups := db.userGroups.filter (fun ug => !(removedGroupIds.contains ug.groupId)) }

/-- `User.create` (`models/user.py`): stores the `password` argument as
given (hashing, when it happens, is the caller's job). -/
def userCreate (db : DB) (userId username password domainId firstName lastName displayName : String) :
    Except DbErr DB :=
  insertUser db { id := userId, username := username, password := password,
                  firstName := firstName, lastName := lastName,
                  displayName := displayName, domainId := domainId, isActive := true }

/-- `User.get(user_id, include_details=False)`: the bare row. -/
def userGetRow (db : DB) (userId : String) : Option UserRow :=
  db.users.find? (fun u => u.id == userId)

/-- `User.get_by_username(..., include_details=False)`: the bare row. -/
def userGetByUsername (db : DB) (username : String) : Option UserRow :=
  db.users.find? (fun u => u.username == username)

/-- `User.get_by_email`: join of `users` with `user_emails` on
`email = ? AND is_primary = 1` (emails are globally unique, so at most one
email row matches). -/
def userGetByEmail (db : DB) (email : String) : Option UserRow :=
  match db.userEmails.find? (fun e => e.email == email && e.isPrimary) with
  | some e => db.users.find? (fun u => u.id == e.userId)
  | none => none

/-- `User.update(user_id, password=new_hash)`: the only `User.update` call
sites relevant here set the (allow-listed) `password` field. -/
def userUpdatePassword (db : DB) (userId newPassword : String) : DB :=
  { db with users := db.users.map (fun u =>
      if u.id == userId then { u with password := newPassword } else u) }

/-- `User.delete`: `DELETE FROM users WHERE id = ?`; the
`ON DELETE CASCADE` clauses on `user_emails`, `user_properties`,
`user_roles` and `user_groups` remove every dependent row. -/
def userDelete (db : DB) (userId : String) : DB :=
  { db with
    users := db.users.filter (fun u => !(u.id == userId)),
    userEmails := db.userEmails.filter (fun e => !(e.userId == userId)),
    userProps := db.userProps.filter (fun p => !(p.userId == userId)),
    userRoles := db.userRoles.filter (fun ur => !(ur.userId == userId)),
    userGroups := db.userGroups.filter (fun ug => !(ug.userId == userId)) }

/-- `User.validate_credentials` (`models/user.py`): plain string comparison
against the stored password, and the `is_active` flag is required; all
three failure causes return the same `None`. -/
def userValidateCredentials (db : DB) (username password : String) : Option UserRow :=
  match userGetByUsername db username with
  | none => none
  | some u => if u.password != password || !u.isActive then none else some u

/-- The `UPDATE user_emails SET is_primary = 0 WHERE user_id = ?` step of
`UserEmail.add`. -/
def unsetPrimary (db : DB) (userId : String) : DB :=
  { db with userEmails := db.userEmails.map (fun e =>
      if e.userId == userId then { e with isPrimary := false } else e) }

/-- `UserEmail.add` (`models/user_email.py`): when `is_primary`, first unset
the user's other primary emails, then insert; both statements share one
transaction, committed together or rolled back together. -/
def userEmailAdd (db : DB) (emailId userId email : String) (isPrimary : Bool) :
    Except DbErr DB :=
  insertEmail (if isPrimary then unsetPrimary db userId else db)
    { id := emailId, userId := userId, email := email,
      isPrimary := isPrimary, isVerified := false }

/-- `UserEmail.get_by_user` (result list; the `ORDER BY` only permutes it). -/
def userEmailGetByUser (db : DB) (userId : String) : List EmailRow :=
  db.userEmails.filter (fun e => e.userId == userId)

/-- `Role.create` (`models/role.py`). -/
def roleCreate (db : DB) (roleId name description : String) : Except DbErr DB :=
  insertRole db { id := roleId, name := name, description := description }

/-- `Role.get_by_name`. -/
def roleGetByName (db : DB) (name : String) : Option RoleRow :=
  db.roles.find? (fun r => r.name == name)

/-- `UserRole.assign` (`models/user_role.py`). -/
def userRoleAssign (db : DB) (assignmentId userId roleId : String) : Except DbErr DB :=
  insertUserRole db { id := assignmentId, userId := userId, roleId := roleId }

/-- `UserRole.get_by_user`: join `roles` with `user_roles` on the user. -/
def userRoleGetByUser (db : DB) (userId : String) : List RoleRow :=
  (db.userRoles.filter (fun ur => ur.userId == userId)).filterMap
    (fun ur => db.roles.find? (fun r => r.id == ur.roleId))

/-- `Group.create` (`models/group.py`). -/
def groupCreate (db : DB) (groupId name domainId description : String) : Except DbErr DB :=
  insertGroup db { id := groupId, name := name, description := description,
                   domainId := domainId }

/-- `Group.get_by_name(name, domain_id)` with a domain given. -/
def groupGetByName (db : DB) (name domainId : String) : Option GroupRow :=
  db.groups.find? (fun g => g.name == name && g.domainId == domainId)

/-- `UserGroup.add` (`models/user_group.py`). -/
def userGroupAdd (db : DB) (membershipId userId groupId : String) : Except DbErr DB :=
  insertUserGroup db { id := membershipId, userId := userId, groupId := groupId }

/-- `UserGroup.get_by_user`: join `groups` with `user_groups` on the user. -/
def userGroupGetByUser (db : DB) (userId : String) : List GroupRow :=
  (db.userGroups.filter (fun ug => ug.userId == userId)).filterMap
    (fun ug => db.groups.find? (fun g => g.id == ug.groupId))

/-- The insert attempted by `AuditLog.log` (`models/audit_log.py`). -/
def auditLogAttempt (db : DB) (r : AuditRow) (storageOk : Bool) : Except DbErr DB :=
  insertAudit db r storageOk

/-- `AuditLog.log`: the insert/commit is wrapped in a bare
`try/except` that logs the failure and rolls back — no exception escapes,
so the model is a total function; on failure the state is unchanged. -/
def auditLogLog (db : DB) (r : AuditRow) (storageOk : Bool) : DB :=
  match auditLogAttempt db r storageOk with
  | .ok db2 => db2
  | .error _ => db

/-! ### The `bcrypt` library contract

`bcrypt.hashpw(pw, gensalt())` and `bcrypt.checkpw(pw, stored)` are external
calls; they are abstracted as a structure carrying the documented facts the
code relies on: a fresh digest verifies against its password, digests carry
the `$2` version marker, and `checkpw` accepts only well-formed digests
(which all carry the marker).  `gensalt()` is modelled by an explicit salt
argument. -/

structure BcryptM where
  hashpw : String → Nat → String
  checkpw : String → String → Bool
  hash_checks : ∀ p salt, checkpw p (hashpw p salt) = true
  hash_form : ∀ p salt, startsWithDollar2 (hashpw p salt) = true
  check_form : ∀ p s, checkpw p s = true → startsWithDollar2 s = true
  check_sound : ∀ p s, checkpw p s = true → ∃ salt, s = hashpw p salt

/-! ### Route layer (`routes/*.py`)

A route handler returns an HTTP-level outcome plus the store state after the
request.  `serverError` is `abort(500)` from a `except Exception` block;
`clientError` carries the explicit status and error message. -/

inductive RouteResult where
  | success (status : Nat)
  | clientError (status : Nat) (msg : String)
  | serverError
deriving DecidableEq, Repr

def RouteResult.status : RouteResult → Nat
  | .success s => s
  | .clientError s _ => s
  | .serverError => 500

/-- The user payload of a valid `/validate` response:
`exclude_password(user)` — the row without its `password` field (the eagerly
assembled detail lists carry no password either and are not modelled). -/
structure SafeUser where
  id : String
  username : String
  firstName : String
  lastName : String
  displayName : String
  domainId : String
  isActive : Bool
deriving DecidableEq, Repr

def mkSafe (u : UserRow) : SafeUser :=
  { id := u.id, username := u.username, firstName := u.firstName,
    lastName := u.lastName, displayName := u.displayName,
    domainId := u.domainId, isActive := u.isActive }

/-- Responses of `POST /validate` (`routes/legacy.py`). -/
inductive LegacyResp where
  | missingFields
  | result (valid : Bool) (user : Option SafeUser)
deriving DecidableEq, Repr

/-- `POST /validate` (`validate_credentials` in `routes/legacy.py`):
look the user up by primary email; accept a plain-text match OR
(`$2`-marked) bcrypt match; on a valid plain-text match, rehash and persist
via `User.update` (whose own failure is swallowed; in this model the update
cannot fail).  Unknown user and wrong password both answer
`{'valid': False}` with status 200. -/
def legacyValidateRoute (B : BcryptM) (salt : Nat) (db : DB)
    (email password : Option String) : LegacyResp × DB :=
  match email, password with
  | some em, some pw =>
    if em == "" || pw == "" then (.missingFields, db)
    else
      match userGetByEmail db em with
      | none => (.result false none, db)
      | some u =>
        let stored := u.password
        let valid := stored == pw || (startsWithDollar2 stored && B.checkpw pw stored)
        let db2 :=
          if valid && !startsWithDollar2 stored then
            userUpdatePassword db u.id (B.hashpw pw salt)
          else db
        if valid then (.result true (some (mkSafe u)), db2)
        else (.result false none, db2)
  | _, _ => (.missingFields, db)

/-- `POST /api/domains` (`routes/domains.py`): `name` key required
(`abort(400)`), stripped name must be non-empty (400), duplicate name
pre-checked (409); any exception from `Domain.create` becomes 500. -/
def createDomainRoute (db : DB) (newId : String) (nameField : Option String)
    (description : String) (isDefault : Bool) (auditId : String) : RouteResult × DB :=
  match nameField with
  | none => (.clientError 400 "Bad Request", db)
  | some rawName =>
    let name := pyStrip rawName
    if name == "" then (.clientError 400 "Domain name is required", db)
    else
      match domainGetByName db name with
      | some _ => (.clientError 409 "Domain name already exists", db)
      | none =>
        match domainCreate db newId name description isDefault with
        | .ok db2 =>
          (.success 201,
           auditLogLog db2 { id := auditId, entityType := "domain", entityId := newId,
                             action := "created", changes := some name } true)
        | .error _ => (.serverError, db)

/-- `POST /api/roles` (`routes/roles.py`): same shape as domain creation. -/
def createRoleRoute (db : DB) (newId : String) (nameField : Option String)
    (description : String) (auditId : String) : RouteResult × DB :=
  match nameField with
  | none => (.clientError 400 "Bad Request", db)
  | some rawName =>
    let name := pyStrip rawName
    if name == "" then (.clientError 400 "Role name is required", db)
    else
      match roleGetByName db name with
      | some _ => (.clientError 409 "Role name already exists", db)
      | none =>
        match roleCreate db newId name description with
        | .ok db2 =>
          (.success 201,
           auditLogLog db2 { id := auditId, entityType := "role", entityId := newId,
                             action := "created", changes := some name } true)
        | .error _ => (.serverError, db)

/-- `POST /api/groups` (`routes/groups.py`): stripped `name` and
`domain_id` must be non-empty (400); a duplicate `(name, domain_id)` is
pre-checked (409); a constraint error from the insert is also mapped to 409
(`'unique' in error_msg or 'constraint' in error_msg`), anything else to
500. -/
def createGroupRoute (db : DB) (newId : String) (nameField domainIdField : Option String)
    (description : String) (auditId : String) : RouteResult × DB :=
  let name := match nameField with | some s => pyStrip s | none => ""
  let domainId := match domainIdField with | some s => pyStrip s | none => ""
  if name == "" then (.clientError 400 "Group name is required", db)
  else if domainId == "" then (.clientError 400 "Domain ID is required", db)
  else
    match groupGetByName db name domainId with
    | some _ => (.clientError 409 "Group name already exists in this domain", db)
    | none =>
      match groupCreate db newId name domainId description with
      | .ok db2 =>
        (.success 201,
         auditLogLog db2 { id := auditId, entityType := "group", entityId := newId,
                           action := "created", changes := some name } true)
      | .error e =>
        if e.isConstraint then
          (.clientError 409 "Group name already exists in this domain", db)
        else (.serverError, db)

/-- `DELETE /api/domains/<id>` (`routes/domains.py`): `Domain.delete` plus
an audit entry on success; any exception — including the RESTRICT
violation when the domain still owns users — is caught and answered with
`abort(500)`. -/
def deleteDomainRoute (db : DB) (domainId auditId : String) : RouteResult × DB :=
  match domainDelete db domainId with
  | .ok db2 =>
    (.success 204,
     auditLogLog db2 { id := auditId, entityType := "domain", entityId := domainId,
                       action := "deleted", changes := none } true)
  | .error _ => (.serverError, db)

/-- `DELETE /api/users/<id>` (`routes/users.py`): 404 when absent;
otherwise `User.delete` (committed) and then `AuditLog.log`, whose storage
outcome is `auditOk`. -/
def deleteUserRoute (db : DB) (userId auditId : String) (auditOk : Bool) :
    RouteResult × DB :=
  match userGetRow db userId with
  | none => (.clientError 404 "Not Found", db)
  | some _ =>
    let db2 := userDelete db userId
    let db3 := auditLogLog db2 { id := auditId, entityType := "user", entityId := userId,
                                 action := "deleted", changes := none } auditOk
    (.success 204, db3)

/-! ### The `json` library contract (`json.dumps` / `json.loads`)

`UserProperty.set` stores `json.dumps(value) if not isinstance(value, str)
else value`; `UserProperty.get` tries `json.loads` and falls back to the
raw string.  The Python value universe and the codec are abstracted: `isStr`
answers `isinstance(value, str)`, `ofStr` injects a raw string back as a
Python `str` value, and `roundtrip` is the library guarantee that
`json.loads(json.dumps(v))` restores a (non-`str`) JSON-serializable
value. -/

structure PyJson (α : Type) where
  encode : α → String
  decode : String → Option α
  ofStr : String → α
  isStr : α → Option String
  isStr_ofStr : ∀ s, isStr (ofStr s) = some s
  roundtrip : ∀ v, isStr v = none → decode (encode v) = some v

/-- `value_str = json.dumps(value) if not isinstance(value, str) else value`. -/
def pyJsonValueStr (J : PyJson α) (v : α) : String :=
  match J.isStr v with
  | some s => s
  | none => J.encode v

/-- The storage step of `UserProperty.set` (`models/user_property.py`):
update the row when `(user_id, key)` exists, insert otherwise. -/
def userPropSetStr (db : DB) (propId userId key valueStr : String) : Except DbErr DB :=
  match db.userProps.find? (fun p => p.userId == userId && p.key == key) with
  | some _ =>
    .ok { db with userProps := db.userProps.map (fun p =>
      if p.userId == userId && p.key == key then { p with value := valueStr } else p) }
  | none => insertProp db { id := propId, userId := userId, key := key, value := valueStr }

/-- `UserProperty.set`. -/
def userPropSet (J : PyJson α) (db : DB) (propId userId key : String) (v : α) :
    Except DbErr DB :=
  userPropSetStr db propId userId key (pyJsonValueStr J v)

/-- `UserProperty.get`: `json.loads(row[0])`, falling back to the raw
string when parsing fails; `None` when no row matches. -/
def userPropGet (J : PyJson α) (db : DB) (userId key : String) : Option α :=
  match db.userProps.find? (fun p => p.userId == userId && p.key == key) with
  | none => none
  | some p =>
    match J.decode p.value with
    | some j => some j
    | none => some (J.ofStr p.value)

/-- `UserProperty.get_by_user`: every row of the user, each value decoded
with the same loads-or-raw rule. -/
def userPropGetByUser (J : PyJson α) (db : DB) (userId : String) : List (String × α) :=
  (db.userProps.filter (fun p => p.userId == userId)).map (fun p =>
    (p.key, match J.decode p.value with
            | some j => j
            | none => J.ofStr p.value))

/-! ### `POST /api/users` (`create_user` in `routes/users.py`)

Each loop commits row by row; an exception inside a loop is caught by the
handler's outer `try` and answered with `abort(500)`, leaving the rows
committed so far in place — the `.error` payload of each `run*` helper is
the state at the moment of the raise. -/

def runAddEmails (gen : Nat → String) (userId : String) :
    List (String × Bool) → DB → Nat → Except DB DB
  | [], db, _ => .ok db
  | (em, prim) :: rest, db, n =>
    match userEmailAdd db (gen n) userId em prim with
    | .ok db2 => runAddEmails gen userId rest db2 (n + 1)
    | .error _ => .error db

def runPropSets (J : PyJson α) (gen : Nat → String) (userId : String) :
    List (String × α) → DB → Nat → Except DB DB
  | [], db, _ => .ok db
  | (k, v) :: rest, db, n =>
    match userPropSet J db (gen n) userId k v with
    | .ok db2 => runPropSets J gen userId rest db2 (n + 1)
    | .error _ => .error db

def runRoleAssigns (gen : Nat → String) (userId : String) :
    List String → DB → Nat → Except DB DB
  | [], db, _ => .ok db
  | rid :: rest, db, n =>
    match userRoleAssign db (gen n) userId rid with
    | .ok db2 => runRoleAssigns gen userId rest db2 (n + 1)
    | .error _ => .error db

def runGroupAdds (gen : Nat → String) (userId : String) :
    List String → DB → Nat → Except DB DB
  | [], db, _ => .ok db
  | gid :: rest, db, n =>
    match userGroupAdd db (gen n) userId gid with
    | .ok db2 => runGroupAdds gen userId rest db2 (n + 1)
    | .error _ => .error db

/-- `POST /api/users`: requires `username`/`password`/`domain_id` keys
(400); rejects duplicate emails in the request (400) and emails already
serving as someone's primary address (409); bcrypt-hashes the password —
with no emptiness check on it — creates the user, then attaches emails,
properties, roles and groups; 500 on any storage exception. -/
def createUserRoute (J : PyJson α) (B : BcryptM) (salt : Nat) (gen : Nat → String)
    (db : DB) (newUserId : String)
    (usernameField passwordField domainIdField : Option String)
    (firstName lastName displayName : String)
    (primaryEmail : Option String) (secondaryEmails : List String)
    (props : List (String × α)) (roleIds groupIds : List String)
    (auditId : String) : RouteResult × DB :=
  match usernameField, passwordField, domainIdField with
  | some un, some pw, some dom =>
    let allEmails := ((match primaryEmail with
        | some pe => if pe == "" then [] else [pe]
        | none => []) ++ secondaryEmails).filter (fun e => !(e == ""))
    if ¬ allEmails.Nodup then (.clientError 400 "Duplicate emails provided", db)
    else
      let primConflict := match primaryEmail with
        | some pe => if pe == "" then false else (userGetByEmail db pe).isSome
        | none => false
      if primConflict then (.clientError 409 "Email already in use", db)
      else
        let secToAdd := secondaryEmails.filter (fun e =>
          match primaryEmail with
          | some pe => !(e == pe)
          | none => true)
        if secToAdd.any (fun e => (userGetByEmail db e).isSome) then
          (.clientError 409 "Email already in use", db)
        else
          let emailsToAdd := (match primaryEmail with
              | some pe => if pe == "" then [] else [(pe, true)]
              | none => []) ++ secToAdd.map (fun e => (e, false))
          let hashed := B.hashpw pw salt
          match userCreate db newUserId un hashed dom firstName lastName displayName with
          | .error _ => (.serverError, db)
          | .ok db2 =>
            match runAddEmails gen newUserId emailsToAdd db2 0 with
            | .error dbE => (.serverError, dbE)
            | .ok db3 =>
              match runPropSets J gen newUserId props db3 0 with
              | .error dbE => (.serverError, dbE)
              | .ok db4 =>
                match runRoleAssigns gen newUserId roleIds db4 0 with
                | .error dbE => (.serverError, dbE)
                | .ok db5 =>
                  match runGroupAdds gen newUserId groupIds db5 0 with
                  | .error dbE => (.serverError, dbE)
                  | .ok db6 =>
                    (.success 201,
                     auditLogLog db6 { id := auditId, entityType := "user",
                                       entityId := newUserId, action := "created",
                                       changes := some un } true)
  | _, _, _ => (.clientError 400 "Bad Request", db)

/-! ### Seeding (`db_init.py`)

`init_seed_data` runs inside one `try`: a failing record aborts the rest
(the rows committed before the failure stay).  Generated ids come from the
uuid stream `gen`.  OIDC profile values are attached through
`UserProperty.set`; they enter this model in their serialized form
(`userPropSetStr`). -/

structure SeedRecord where
  email : Option String
  preferredUsername : Option String
  password : Option String
  givenName : Option String
  familyName : Option String
  name : Option String
  props : List (String × String)
deriving Repr

def runSeedProps (gen : Nat → String) (userId : String) :
    List (String × String) → DB → Nat → Except DB (DB × Nat)
  | [], db, n => .ok (db, n)
  | (k, v) :: rest, db, n =>
    match userPropSetStr db (gen n) userId k v with
    | .ok db2 => runSeedProps gen userId rest db2 (n + 1)
    | .error _ => .error db

/-- One iteration of the user loop of `init_seed_data`: skip when a user
with the record's email as username exists; otherwise create the user —
`password = user_data.get('password', 'ChangeMe123!')` is passed to
`User.create` verbatim — then attach the email (primary), the properties,
and the baseline role (`admin` for `admin@localhost`, `user` otherwise). -/
def seedOne (gen : Nat → String) (domainId adminRoleId userRoleId : String)
    (db : DB) (n : Nat) (r : SeedRecord) : Except DB (DB × Nat) :=
  match userGetByUsername db (r.email.getD "") with
  | some _ => .ok (db, n)
  | none =>
    let username := match r.email with
      | some e => e
      | none => r.preferredUsername.getD ""
    let password := r.password.getD "ChangeMe123!"
    let firstName := r.givenName.getD ""
    let lastName := r.familyName.getD ""
    let displayName := match r.name with
      | some nm => nm
      | none => pyStrip (firstName ++ " " ++ lastName)
    match userCreate db (gen n) username password domainId firstName lastName displayName with
    | .error _ => .error db
    | .ok db2 =>
      let afterEmail : Except DB (DB × Nat) :=
        match r.email with
        | some em =>
          match userEmailAdd db2 (gen (n + 1)) (gen n) em true with
          | .ok db3 => .ok (db3, n + 2)
          | .error _ => .error db2
        | none => .ok (db2, n + 1)
      match afterEmail with
      | .error dbE => .error dbE
      | .ok (db3, n3) =>
        match runSeedProps gen (gen n) r.props db3 n3 with
        | .error dbE => .error dbE
        | .ok (db4, n4) =>
          let roleId := if username == "admin@localhost" then adminRoleId else userRoleId
          match userRoleAssign db4 (gen n4) (gen n) roleId with
          | .ok db5 => .ok (db5, n4 + 1)
          | .error _ => .error db4

def seedUsers (gen : Nat → String) (domainId adminRoleId userRoleId : String) :
    List SeedRecord → DB → Nat → Except DB DB
  | [], db, _ => .ok db
  | r :: rest, db, n =>
    match seedOne gen domainId adminRoleId userRoleId db n r with
    | .ok (db2, n2) => seedUsers gen domainId adminRoleId userRoleId rest db2 n2
    | .error dbE => .error dbE

/-- `init_default_domain`: create the `localhost` domain unless present. -/
def initDefaultDomain (gen : Nat → String) (db : DB) (n : Nat) :
    Except DB (DB × String × Nat) :=
  match domainGetByName db "localhost" with
  | some d => .ok (db, d.id, n)
  | none =>
    match domainCreate db (gen n) "localhost" "Default localhost domain" true with
    | .ok db2 => .ok (db2, gen n, n + 1)
    | .error _ => .error db

/-- One name of `init_default_roles`: create-if-absent by name. -/
def ensureRole (gen : Nat → String) (db : DB) (n : Nat) (name description : String) :
    Except DB (DB × String × Nat) :=
  match roleGetByName db name with
  | some r => .ok (db, r.id, n)
  | none =>
    match roleCreate db (gen n) name description with
    | .ok db2 => .ok (db2, gen n, n + 1)
    | .error _ => .error db

/-- `init_seed_data` with a loaded record list: default domain, the three
baseline roles, then the user loop. -/
def initSeedData (gen : Nat → String) (db : DB) (records : List SeedRecord) :
    Except DB DB :=
  match initDefaultDomain gen db 0 with
  | .error dbE => .error dbE
  | .ok (db1, domId, n1) =>
    match ensureRole gen db1 n1 "admin" "Administrator with full access" with
    | .error dbE => .error dbE
    | .ok (db2, admId, n2) =>
      match ensureRole gen db2 n2 "user" "Standard user" with
      | .error dbE => .error dbE
      | .ok (db3, usrId, n3) =>
        match ensureRole gen db3 n3 "guest" "Guest user with limited access" with
        | .error dbE => .error dbE
        | .ok (db4, _, n4) =>
          seedUsers gen domId admId usrId records db4 n4

/-! ### A concrete bcrypt model

A small executable instance of the `BcryptM` contract, used to exercise
the theorems on closed inputs: the digest of `p` under salt `n` is
`"$2b$" ++ n times 'x' ++ "$" ++ p`, and checking parses that shape
back. -/

def mkHash (p : String) (salt : Nat) : String :=
  "$2b$" ++ String.mk (List.replicate salt 'x') ++ "$" ++ p

def chkSalt : List Char → List Char → Bool
  | c :: rest, pw =>
    if c == 'x' then chkSalt rest pw
    else if c == '$' then rest == pw
    else false
  | [], _ => false

def chkHash (p s : String) : Bool :=
  match s.toList with
  | a :: b :: c :: d :: rest =>
    a == '$' && b == '2' && c == 'b' && d == '$' && chkSalt rest p.toList
  | _ => false

lemma mkHash_data (p : String) (salt : Nat) :
    (mkHash p salt).data =
      '$' :: '2' :: 'b' :: '$' :: (List.replicate salt 'x' ++ '$' :: p.data) := by
  simp [mkHash, String.data_append]

lemma chkSalt_replicate (pw : List Char) (n : Nat) :
    chkSalt (List.replicate n 'x' ++ '$' :: pw) pw = true := by
  induction n with
  | zero => simp [chkSalt]
  | succ n ih => simpa [List.replicate_succ, chkSalt] using ih

lemma chkHash_mkHash (p : String) (salt : Nat) : chkHash p (mkHash p salt) = true := by
  simp [chkHash, String.toList, mkHash_data, chkSalt_replicate]

lemma startsWithDollar2_mkHash (p : String) (salt : Nat) :
    startsWithDollar2 (mkHash p salt) = true := by
  simp [startsWithDollar2, String.toList, mkHash_data]

lemma chkHash_form (p s : String) (h : chkHash p s = true) :
    startsWithDollar2 s = true := by
  unfold chkHash at h
  unfold startsWithDollar2
  cases hl : s.toList with
  | nil => rw [hl] at h; simp at h
  | cons a t1 =>
    cases t1 with
    | nil => rw [hl] at h; simp at h
    | cons b t2 =>
      cases t2 with
      | nil => rw [hl] at h; simp at h
      | cons c t3 =>
        cases t3 with
        | nil => rw [hl] at h; simp at h
        | cons d t4 =>
          rw [hl] at h
          simp only [Bool.and_eq_true] at h
          obtain ⟨⟨⟨⟨ha, hb⟩, _⟩, _⟩, _⟩ := h
          simp [ha, hb]

lemma chkSalt_sound (l pw : List Char) (h : chkSalt l pw = true) :
    ∃ k, l = List.replicate k 'x' ++ '$' :: pw := by
  induction l with
  | nil => simp [chkSalt] at h
  | cons c r ih =>
    unfold chkSalt at h
    by_cases hc : c = 'x'
    · rw [if_pos (by simp [hc])] at h
      obtain ⟨k, hk⟩ := ih h
      exact ⟨k + 1, by rw [List.replicate_succ, hc, hk]; rfl⟩
    · rw [if_neg (by simp [hc])] at h
      by_cases hd : c = '$'
      · rw [if_pos (by simp [hd])] at h
        have hr : r = pw := by simpa using h
        exact ⟨0, by simp [hd, hr]⟩
      · rw [if_neg (by simp [hd])] at h
        simp at h

lemma chkHash_sound (p s : String) (h : chkHash p s = true) :
    ∃ salt, s = mkHash p salt := by
  unfold chkHash at h
  cases hl : s.toList with
  | nil => rw [hl] at h; simp at h
  | cons a t1 =>
    cases t1 with
    | nil => rw [hl] at h; simp at h
    | cons b t2 =>
      cases t2 with
      | nil => rw [hl] at h; simp at h
      | cons c t3 =>
        cases t3 with
        | nil => rw [hl] at h; simp at h
        | cons d t4 =>
          rw [hl] at h
          simp only [Bool.and_eq_true, beq_iff_eq] at h
          obtain ⟨⟨⟨⟨ha, hb⟩, hc⟩, hd⟩, hsalt⟩ := h
          obtain ⟨k, hk⟩ := chkSalt_sound t4 p.toList hsalt
          refine ⟨k, String.ext ?_⟩
          have hdata : s.data = a :: b :: c :: d :: t4 := hl
          rw [hdata, mkHash_data, ha, hb, hc, hd, hk]
          rfl

def toyBcrypt : BcryptM :=
  { hashpw := mkHash
    checkpw := chkHash
    hash_checks := chkHash_mkHash
    hash_form := fun p salt => startsWithDollar2_mkHash p salt
    check_form := chkHash_form
    check_sound := chkHash_sound }

/-! ### A concrete json model

An executable `PyJson` instance over a value universe of booleans and
strings; `"true"`/`"false"` are the strings that parse as (non-string)
JSON, matching the `json.loads` behaviour the claims exercise. -/

inductive ToyVal where
  | vbool (b : Bool)
  | vstr (s : String)
deriving DecidableEq, Repr

def toyEncode : ToyVal → String
  | .vbool true => "true"
  | .vbool false => "false"
  | .vstr s => "\"" ++ s ++ "\""

def toyDecode (s : String) : Option ToyVal :=
  if s == "true" then some (.vbool true)
  else if s == "false" then some (.vbool false)
  else none

def toyIsStr : ToyVal → Option String
  | .vstr s => some s
  | .vbool _ => none

def toyJson : PyJson ToyVal :=
  { encode := toyEncode
    decode := toyDecode
    ofStr := .vstr
    isStr := toyIsStr
    isStr_ofStr := fun _ => rfl
    roundtrip := by
      intro v hv
      cases v with
      | vstr s => simp [toyIsStr] at hv
      | vbool b => cases b <;> rfl }

/-! ### Generic list helpers -/

lemma find?_append_of_none {β : Type} (l1 l2 : List β) (p : β → Bool)
    (h : l1.find? p = none) : (l1 ++ l2).find? p = l2.find? p := by
  rw [List.find?_append, h, Option.none_or]

lemma find?_map_of_pred {β : Type} (l : List β) (p : β → Bool) (f : β → β)
    (hp : ∀ x, p (f x) = p x) :
    (l.map f).find? p = (l.find? p).map f := by
  induction l with
  | nil => rfl
  | cons x t ih =>
    simp only [List.map_cons, List.find?]
    rw [hp x]
    cases hx : p x <;> simp [ih]

lemma filter_map_congr {β : Type} (l : List β) (p : β → Bool) (f : β → β)
    (h1 : ∀ x ∈ l, p (f x) = p x) (h2 : ∀ x ∈ l, p x = true → f x = x) :
    (l.map f).filter p = l.filter p := by
  induction l with
  | nil => rfl
  | cons x t ih =>
    have hx1 := h1 x (by simp)
    have ihx := ih (fun y hy => h1 y (by simp [hy])) (fun y hy => h2 y (by simp [hy]))
    simp only [List.map_cons, List.filter_cons]
    cases hx : p x with
    | false => rw [hx1, hx]; exact ihx
    | true => rw [hx1, hx, h2 x (by simp) hx, ihx]

lemma filter_filter_not {β : Type} (l : List β) (p : β → Bool) :
    (l.filter (fun x => !(p x))).filter p = [] := by
  rw [List.filter_filter]
  apply List.filter_eq_nil_iff.mpr
  intro a _
  cases p a <;> simp

/-! ### Sequences of `UserEmail.add` calls (claim about the primary-email
invariant)

`AddOp` is one call to `UserEmail.add`; `emailAddRun` is its effect on the
store (an exception leaves the state unchanged — both statements of the
call share one rolled-back transaction), `emailAddOk` whether it
committed.  `lastPrimOf uid ops db` is the email of the last committed
`is_primary=True` add for `uid` along the run. -/

structure AddOp where
  eid : String
  userId : String
  email : String
  isPrimary : Bool
deriving DecidableEq, Repr

def emailAddRun (db : DB) (op : AddOp) : DB :=
  match userEmailAdd db op.eid op.userId op.email op.isPrimary with
  | .ok db2 => db2
  | .error _ => db

def emailAddOk (db : DB) (op : AddOp) : Bool :=
  match userEmailAdd db op.eid op.userId op.email op.isPrimary with
  | .ok _ => true
  | .error _ => false

def runAdds : List AddOp → DB → DB
  | [], db => db
  | op :: rest, db => runAdds rest (emailAddRun db op)

def lastPrimOf (uid : String) : List AddOp → DB → Option String
  | [], _ => none
  | op :: rest, db =>
    match lastPrimOf uid rest (emailAddRun db op) with
    | some e => some e
    | none =>
      if emailAddOk db op && op.isPrimary && (op.userId == uid) then some op.email
      else none

/-- The emails of `uid` currently flagged primary. -/
def primaryEmailsOf (db : DB) (uid : String) : List String :=
  (db.userEmails.filter (fun e => e.userId == uid && e.isPrimary)).map (·.email)

/-- The invariant: every user has at most one primary email. -/
def atMostOnePrimary (db : DB) : Prop :=
  ∀ uid, (primaryEmailsOf db uid).length ≤ 1

lemma emailAddRun_of_fail (db : DB) (op : AddOp) (h : emailAddOk db op = false) :
    emailAddRun db op = db := by
  unfold emailAddOk at h
  unfold emailAddRun
  cases hu : userEmailAdd db op.eid op.userId op.email op.isPrimary with
  | ok db2 => rw [hu] at h; simp at h
  | error e => rfl

lemma insertEmail_ok_emails (db : DB) (r : EmailRow) (db2 : DB)
    (h : insertEmail db r = .ok db2) : db2.userEmails = db.userEmails ++ [r] := by
  unfold insertEmail at h
  split at h
  · exact absurd h (by simp)
  · split at h
    · exact absurd h (by simp)
    · split at h
      · exact absurd h (by simp)
      · split at h
        · exact absurd h (by simp)
        · injection h with h2
          rw [← h2]

lemma unsetPrimary_emails (db : DB) (uid : String) :
    (unsetPrimary db uid).userEmails =
      db.userEmails.map (fun e => if e.userId == uid then { e with isPrimary := false } else e) :=
  rfl

lemma emailAddRun_emails (db : DB) (op : AddOp) (h : emailAddOk db op = true) :
    (emailAddRun db op).userEmails =
      (if op.isPrimary then unsetPrimary db op.userId else db).userEmails ++
        [{ id := op.eid, userId := op.userId, email := op.email,
           isPrimary := op.isPrimary, isVerified := false }] := by
  unfold emailAddOk at h
  unfold emailAddRun
  cases hu : userEmailAdd db op.eid op.userId op.email op.isPrimary with
  | error e => rw [hu] at h; simp at h
  | ok db2 =>
    have h2 := insertEmail_ok_emails _ _ _ hu
    simpa using h2

lemma filter_unset_nil (l : List EmailRow) (uid : String) :
    (l.map (fun e => if e.userId == uid then { e with isPrimary := false } else e)).filter
      (fun e => e.userId == uid && e.isPrimary) = [] := by
  apply List.filter_eq_nil_iff.mpr
  intro a ha
  rcases List.mem_map.mp ha with ⟨x, _, rfl⟩
  by_cases hx : x.userId = uid
  · simp [hx]
  · simp [hx]

lemma filter_unset_other (l : List EmailRow) (uid1 uid2 : String) (hne : uid1 ≠ uid2) :
    (l.map (fun e => if e.userId == uid1 then { e with isPrimary := false } else e)).filter
      (fun e => e.userId == uid2 && e.isPrimary) =
    l.filter (fun e => e.userId == uid2 && e.isPrimary) := by
  apply filter_map_congr
  · intro x _
    by_cases hx : x.userId = uid1
    · have h2 : (uid1 == uid2) = false := beq_eq_false_iff_ne.mpr hne
      simp [hx, h2]
    · have h1 : (x.userId == uid1) = false := beq_eq_false_iff_ne.mpr hx
      simp [h1]
  · intro x _ hpx
    simp only [Bool.and_eq_true, beq_iff_eq] at hpx
    have h1 : (x.userId == uid1) = false :=
      beq_eq_false_iff_ne.mpr (by rw [hpx.1]; exact fun hc => hne hc.symm)
    simp [h1]

/-- A committed primary add makes the added address the user's single
primary email. -/
lemma primaryEmailsOf_prim_self (db : DB) (op : AddOp)
    (hok : emailAddOk db op = true) (hprim : op.isPrimary = true) :
    primaryEmailsOf (emailAddRun db op) op.userId = [op.email] := by
  unfold primaryEmailsOf
  rw [emailAddRun_emails db op hok, hprim, if_pos rfl, List.filter_append,
    unsetPrimary_emails, filter_unset_nil]
  simp

/-- A committed primary add does not change any other user's primary
emails. -/
lemma primaryEmailsOf_prim_other (db : DB) (op : AddOp) (uid : String)
    (hok : emailAddOk db op = true) (hprim : op.isPrimary = true)
    (hne : op.userId ≠ uid) :
    primaryEmailsOf (emailAddRun db op) uid = primaryEmailsOf db uid := by
  unfold primaryEmailsOf
  rw [emailAddRun_emails db op hok, hprim, if_pos rfl, List.filter_append,
    unsetPrimary_emails, filter_unset_other db.userEmails op.userId uid hne]
  have h1 : (op.userId == uid) = false := beq_eq_false_iff_ne.mpr hne
  simp [h1]

/-- A committed non-primary add changes no user's primary emails. -/
lemma primaryEmailsOf_nonprim (db : DB) (op : AddOp) (uid : String)
    (hok : emailAddOk db op = true) (hprim : op.isPrimary = false) :
    primaryEmailsOf (emailAddRun db op) uid = primaryEmailsOf db uid := by
  unfold primaryEmailsOf
  rw [emailAddRun_emails db op hok, hprim, if_neg (by simp), List.filter_append]
  simp

/-- Main induction for `UserEmail.add` sequences: the at-most-one-primary
invariant is preserved, the last committed primary add determines the
user's primary email, and with no committed primary add the user's primary
emails are untouched. -/
lemma runAdds_primary_spec (ops : List AddOp) :
    ∀ db : DB, atMostOnePrimary db →
      atMostOnePrimary (runAdds ops db) ∧
      ∀ uid : String,
        (∀ e, lastPrimOf uid ops db = some e →
          primaryEmailsOf (runAdds ops db) uid = [e]) ∧
        (lastPrimOf uid ops db = none →
          primaryEmailsOf (runAdds ops db) uid = primaryEmailsOf db uid) := by
  induction ops with
  | nil =>
    intro db hinv
    refine ⟨hinv, fun uid => ⟨?_, fun _ => rfl⟩⟩
    intro e he
    simp [lastPrimOf] at he
  | cons op rest ih =>
    intro db hinv
    have hinv1 : atMostOnePrimary (emailAddRun db op) := by
      cases hok : emailAddOk db op with
      | false => rw [emailAddRun_of_fail db op hok]; exact hinv
      | true =>
        cases hprim : op.isPrimary with
        | false =>
          intro uid
          rw [primaryEmailsOf_nonprim db op uid hok hprim]
          exact hinv uid
        | true =>
          intro uid
          by_cases hu : op.userId = uid
          · rw [← hu, primaryEmailsOf_prim_self db op hok hprim]
            simp
          · rw [primaryEmailsOf_prim_other db op uid hok hprim hu]
            exact hinv uid
    obtain ⟨ih1, ih2⟩ := ih (emailAddRun db op) hinv1
    refine ⟨by simpa [runAdds] using ih1, ?_⟩
    intro uid
    obtain ⟨ihSome, ihNone⟩ := ih2 uid
    constructor
    · intro e he
      simp only [lastPrimOf] at he
      cases ht : lastPrimOf uid rest (emailAddRun db op) with
      | some e2 =>
        rw [ht] at he
        injection he with he2
        subst he2
        simpa [runAdds] using ihSome _ ht
      | none =>
        rw [ht] at he
        by_cases hc : (emailAddOk db op && op.isPrimary && (op.userId == uid)) = true
        · rw [if_pos hc] at he
          injection he with he2
          subst he2
          simp only [Bool.and_eq_true] at hc
          obtain ⟨⟨hok, hprim⟩, huid⟩ := hc
          have huid2 : op.userId = uid := by simpa using huid
          simp only [runAdds]
          rw [ihNone ht, ← huid2, primaryEmailsOf_prim_self db op hok hprim]
        · rw [if_neg hc] at he
          exact absurd he (by simp)
    · intro hnone0
      simp only [lastPrimOf] at hnone0
      cases ht : lastPrimOf uid rest (emailAddRun db op) with
      | some e2 =>
        rw [ht] at hnone0
        simp at hnone0
      | none =>
        rw [ht] at hnone0
        have hcf : (emailAddOk db op && op.isPrimary && (op.userId == uid)) = false := by
          by_cases hc : (emailAddOk db op && op.isPrimary && (op.userId == uid)) = true
          · rw [if_pos hc] at hnone0
            simp at hnone0
          · simpa using hc
        have hstep : primaryEmailsOf (emailAddRun db op) uid = primaryEmailsOf db uid := by
          cases hok : emailAddOk db op with
          | false => rw [emailAddRun_of_fail db op hok]
          | true =>
            cases hprim : op.isPrimary with
            | false => exact primaryEmailsOf_nonprim db op uid hok hprim
            | true =>
              have hbeq : (op.userId == uid) = false := by
                rw [hok, hprim] at hcf
                simpa using hcf
              exact primaryEmailsOf_prim_other db op uid hok hprim
                (beq_eq_false_iff_ne.mp hbeq)
        simp only [runAdds]
        rw [ihNone ht, hstep]

/-! ### Structural helpers about the operations -/

lemma auditLogLog_cases (db : DB) (r : AuditRow) (ok : Bool) :
    auditLogLog db r ok = db ∨
    auditLogLog db r ok = { db with auditLogs := db.auditLogs ++ [r] } := by
  unfold auditLogLog auditLogAttempt insertAudit
  by_cases h1 : (!ok) = true
  · rw [if_pos h1]; left; rfl
  · rw [if_neg h1]
    by_cases h2 : (List.find? (fun a => a.id == r.id) db.auditLogs).isSome = true
    · rw [if_pos h2]; left; rfl
    · rw [if_neg h2]; right; rfl

lemma auditLogLog_users (db : DB) (r : AuditRow) (ok : Bool) :
    (auditLogLog db r ok).users = db.users := by
  rcases auditLogLog_cases db r ok with h | h <;> rw [h]

lemma auditLogLog_domains (db : DB) (r : AuditRow) (ok : Bool) :
    (auditLogLog db r ok).domains = db.domains := by
  rcases auditLogLog_cases db r ok with h | h <;> rw [h]

lemma auditLogLog_groups (db : DB) (r : AuditRow) (ok : Bool) :
    (auditLogLog db r ok).groups = db.groups := by
  rcases auditLogLog_cases db r ok with h | h <;> rw [h]

lemma userDelete_emails (db : DB) (uid : String) :
    (userDelete db uid).userEmails = db.userEmails.filter (fun e => !(e.userId == uid)) :=
  rfl

lemma userDelete_props (db : DB) (uid : String) :
    (userDelete db uid).userProps = db.userProps.filter (fun p => !(p.userId == uid)) :=
  rfl

lemma userDelete_roles (db : DB) (uid : String) :
    (userDelete db uid).userRoles = db.userRoles.filter (fun ur => !(ur.userId == uid)) :=
  rfl

lemma userDelete_groups (db : DB) (uid : String) :
    (userDelete db uid).userGroups = db.userGroups.filter (fun ug => !(ug.userId == uid)) :=
  rfl

lemma userUpdatePassword_users (db : DB) (uid pw : String) :
    (userUpdatePassword db uid pw).users =
      db.users.map (fun u => if u.id == uid then { u with password := pw } else u) :=
  rfl

lemma sqlNonBlank_of_dollar2 (s : String) (h : startsWithDollar2 s = true) :
    sqlNonBlank s = true := by
  unfold startsWithDollar2 at h
  unfold sqlNonBlank
  cases hl : s.toList with
  | nil => rw [hl] at h; simp at h
  | cons c1 t =>
    cases t with
    | nil => rw [hl] at h; simp at h
    | cons c2 t2 =>
      rw [hl] at h
      simp only [Bool.and_eq_true, beq_iff_eq] at h
      simp [h.1]

lemma insertUser_ok (db : DB) (r : UserRow) (db2 : DB)
    (h : insertUser db r = .ok db2) : db2 = { db with users := db.users ++ [r] } := by
  unfold insertUser at h
  split at h
  · exact absurd h (by simp)
  · split at h
    · exact absurd h (by simp)
    · split at h
      · exact absurd h (by simp)
      · split at h
        · exact absurd h (by simp)
        · split at h
          · exact absurd h (by simp)
          · injection h with h2
            exact h2.symm

lemma insertUser_blank_username (db : DB) (r : UserRow)
    (h : sqlNonBlank r.username = false) : ∃ e, insertUser db r = .error e := by
  unfold insertUser
  split
  · exact ⟨_, rfl⟩
  · split
    · exact ⟨_, rfl⟩
    · rw [if_pos (by simp [h])]
      exact ⟨_, rfl⟩

lemma insertEmail_ok_users (db : DB) (r : EmailRow) (db2 : DB)
    (h : insertEmail db r = .ok db2) : db2.users = db.users := by
  unfold insertEmail at h
  split at h
  · exact absurd h (by simp)
  · split at h
    · exact absurd h (by simp)
    · split at h
      · exact absurd h (by simp)
      · split at h
        · exact absurd h (by simp)
        · injection h with h2
          rw [← h2]

lemma insertProp_ok_users (db : DB) (r : PropRow) (db2 : DB)
    (h : insertProp db r = .ok db2) : db2.users = db.users := by
  unfold insertProp at h
  split at h
  · exact absurd h (by simp)
  · split at h
    · exact absurd h (by simp)
    · split at h
      · exact absurd h (by simp)
      · injection h with h2
        rw [← h2]

lemma insertUserRole_ok_users (db : DB) (r : UserRoleRow) (db2 : DB)
    (h : insertUserRole db r = .ok db2) : db2.users = db.users := by
  unfold insertUserRole at h
  split at h
  · exact absurd h (by simp)
  · split at h
    · exact absurd h (by simp)
    · split at h
      · exact absurd h (by simp)
      · split at h
        · exact absurd h (by simp)
        · injection h with h2
          rw [← h2]

lemma userEmailAdd_ok_users (db : DB) (eid uid em : String) (prim : Bool) (db2 : DB)
    (h : userEmailAdd db eid uid em prim = .ok db2) : db2.users = db.users := by
  unfold userEmailAdd at h
  have h2 := insertEmail_ok_users _ _ _ h
  rw [h2]
  cases prim <;> rfl

lemma userPropSetStr_ok_users (db : DB) (pid uid key vs : String) (db2 : DB)
    (h : userPropSetStr db pid uid key vs = .ok db2) : db2.users = db.users := by
  unfold userPropSetStr at h
  split at h
  · injection h with h2
    rw [← h2]
  · exact insertProp_ok_users _ _ _ h

lemma runSeedProps_ok_users (gen : Nat → String) (uid : String)
    (items : List (String × String)) :
    ∀ db n db2 n2, runSeedProps gen uid items db n = .ok (db2, n2) →
      db2.users = db.users := by
  induction items with
  | nil =>
    intro db n db2 n2 h
    simp only [runSeedProps, Except.ok.injEq, Prod.mk.injEq] at h
    rw [← h.1]
  | cons x rest ih =>
    intro db n db2 n2 h
    unfold runSeedProps at h
    cases hs : userPropSetStr db (gen n) uid x.1 x.2 with
    | ok dbm =>
      rw [hs] at h
      rw [ih dbm (n + 1) db2 n2 h, userPropSetStr_ok_users db (gen n) uid x.1 x.2 dbm hs]
    | error e =>
      rw [hs] at h
      exact absurd h (by simp)

/-! ### Concrete sample data -/

def domA : DomainRow :=
  { id := "d1", name := "acme", description := "", isDefault := false }

def userA : UserRow :=
  { id := "u1", username := "alice", password := "pw123", firstName := "",
    lastName := "", displayName := "", domainId := "d1", isActive := true }

def mailA : EmailRow :=
  { id := "m1", userId := "u1", email := "alice@acme.example",
    isPrimary := true, isVerified := false }

/-- A store with one domain and one user whose stored credential is the
legacy plain text `"pw123"`. -/
def dbA : DB := { emptyDB with domains := [domA], users := [userA], userEmails := [mailA] }

def userBob : UserRow :=
  { id := "u2", username := "bob", password := "pw", firstName := "",
    lastName := "", displayName := "", domainId := "d1", isActive := false }

def mailBob : EmailRow :=
  { id := "m2", userId := "u2", email := "bob@acme.example",
    isPrimary := true, isVerified := false }

/-- A store with one inactive user whose stored credential matches `"pw"`. -/
def dbB : DB := { emptyDB with domains := [domA], users := [userBob], userEmails := [mailBob] }

/-- A store with one domain and one user and no emails. -/
def dbU : DB := { emptyDB with domains := [domA], users := [userA] }

/-- A store with just one domain. -/
def dbD : DB := { emptyDB with domains := [domA] }

def nogen : Nat → String := fun n => String.mk (List.replicate (n + 1) 'g')

/-! ## Claim theorems -/

/-- C1: for a credential-validation request that reaches a stored
credential `u.password`, verification succeeds when the stored value is a
bcrypt digest of the submitted password or equals it as legacy plain text,
fails when neither holds, and a successful verification against a stored
value not in hash form (no `$2` marker, the legacy plain-text form)
rehashes and persists the user's credential as a salted bcrypt digest. -/
theorem legacy_validate_verify_and_rehash (B : BcryptM) (db : DB) (em p : String)
    (salt : Nat) (u : UserRow)
    (hem : (em == "") = false) (hp : (p == "") = false)
    (hu : userGetByEmail db em = some u) :
    (∀ s0, u.password = B.hashpw p s0 →
      (legacyValidateRoute B salt db (some em) (some p)).fst =
        .result true (some (mkSafe u))) ∧
    (u.password = p →
      (legacyValidateRoute B salt db (some em) (some p)).fst =
        .result true (some (mkSafe u))) ∧
    (u.password ≠ p → (¬ ∃ s0, u.password = B.hashpw p s0) →
      (legacyValidateRoute B salt db (some em) (some p)).fst = .result false none) ∧
    (u.password = p → startsWithDollar2 u.password = false →
      ∀ v ∈ (legacyValidateRoute B salt db (some em) (some p)).snd.users,
        v.id = u.id → v.password = B.hashpw p salt ∧ startsWithDollar2 v.password = true) := by
  refine ⟨?_, ?_, ?_, ?_⟩
  · intro s0 hs
    have h1 : startsWithDollar2 u.password = true := by rw [hs]; exact B.hash_form p s0
    have h2 : B.checkpw p u.password = true := by rw [hs]; exact B.hash_checks p s0
    simp [legacyValidateRoute, hem, hp, hu, h1, h2]
  · intro hpw
    simp [legacyValidateRoute, hem, hp, hu, hpw]
  · intro hne hnd
    have h1 : (u.password == p) = false := beq_eq_false_iff_ne.mpr hne
    have h2 : B.checkpw p u.password = false := by
      cases hc : B.checkpw p u.password with
      | false => rfl
      | true => exact absurd (B.check_sound p u.password hc) hnd
    simp [legacyValidateRoute, hem, hp, hu, h1, h2]
  · intro hpw hsw
    have hsw2 : startsWithDollar2 p = false := hpw ▸ hsw
    have hsnd : (legacyValidateRoute B salt db (some em) (some p)).snd =
        userUpdatePassword db u.id (B.hashpw p salt) := by
      simp [legacyValidateRoute, hem, hp, hu, hpw, hsw2]
    rw [hsnd]
    intro v hv hid
    rw [userUpdatePassword_users] at hv
    rcases List.mem_map.mp hv with ⟨x, hx, rfl⟩
    by_cases hxid : x.id = u.id
    · have hb : (x.id == u.id) = true := by simp [hxid]
      refine ⟨by simp [hb], ?_⟩
      rw [show (if x.id == u.id then { x with password := B.hashpw p salt } else x).password
            = B.hashpw p salt by simp [hb]]
      exact B.hash_form p salt
    · have hb : (x.id == u.id) = false := beq_eq_false_iff_ne.mpr hxid
      rw [show (if x.id == u.id then { x with password := B.hashpw p salt } else x) = x
            by simp [hb]] at hid
      exact absurd hid hxid

/-- C1 witness: on a store whose user `alice` has the legacy plain-text
credential `"pw123"`, validation with the matching password answers
`valid` with the user payload. -/
theorem legacy_validate_verify_and_rehash_witness :
    (legacyValidateRoute toyBcrypt 3 dbA (some "alice@acme.example") (some "pw123")).fst =
      .result true (some (mkSafe userA)) := by
  have h := legacy_validate_verify_and_rehash toyBcrypt dbA "alice@acme.example" "pw123" 3 userA
    (by decide) (by decide) (by decide)
  exact h.2.1 rfl

/-- C2: starting from any store in which every user has at most one
primary email, after any sequence of `UserEmail.add` calls (any
`is_primary` flags) every user still has at most one primary email, and
when committed `is_primary=True` additions occurred for a user, that
user's single primary email is the one added most recently. -/
theorem user_email_primary_invariant (ops : List AddOp) (db : DB)
    (hinv : atMostOnePrimary db) :
    atMostOnePrimary (runAdds ops db) ∧
    ∀ uid e, lastPrimOf uid ops db = some e →
      primaryEmailsOf (runAdds ops db) uid = [e] := by
  obtain ⟨h1, h2⟩ := runAdds_primary_spec ops db hinv
  exact ⟨h1, fun uid e he => (h2 uid).1 e he⟩

/-- The spec's concrete scenario: two primary adds for one user. -/
def opsTwoPrimary : List AddOp :=
  [{ eid := "m1", userId := "u1", email := "a@acme.example", isPrimary := true },
   { eid := "m2", userId := "u1", email := "b@acme.example", isPrimary := true }]

/-- C2 witness: adding two emails with `is_primary=True` to one user
leaves exactly one primary email — the most recent one. -/
theorem user_email_primary_invariant_witness :
    primaryEmailsOf (runAdds opsTwoPrimary dbU) "u1" = ["b@acme.example"] := by
  have h := user_email_primary_invariant opsTwoPrimary dbU (fun _ => Nat.zero_le 1)
  exact h.2 "u1" "b@acme.example" (by decide)

/-- C3 counterexample: on a store whose domain `d1` still owns user `u1`,
`DELETE /api/domains/d1` does refuse and deletes nothing, but it answers
with the generic 500 internal error — not with a ConflictError (409)
naming the dependency, which is what the claim requires. -/
theorem delete_domain_conflict_counterexample :
    (dbA.users.find? (fun u2 => u2.domainId == "d1")).isSome = true ∧
    deleteDomainRoute dbA "d1" "a1" = (.serverError, dbA) ∧
    RouteResult.status (deleteDomainRoute dbA "d1" "a1").fst = 500 ∧
    RouteResult.status (deleteDomainRoute dbA "d1" "a1").fst ≠ 409 := by
  refine ⟨by decide, by decide, by decide, by decide⟩

/-- C3 amended: deleting a domain that still owns a user fails — surfaced
as a 500 internal error, the storage RESTRICT constraint having aborted
the statement — and deletes neither the domain nor any user; once the
domain owns no users, the same delete succeeds and removes the domain,
still touching no user rows. -/
theorem delete_domain_restrict (db : DB) (did aid : String)
    (hdom : (db.domains.find? (fun d => d.id == did)).isSome = true) :
    ((db.users.find? (fun u2 => u2.domainId == did)).isSome = true →
      deleteDomainRoute db did aid = (.serverError, db)) ∧
    ((db.users.find? (fun u2 => u2.domainId == did)).isSome = false →
      (deleteDomainRoute db did aid).fst = .success 204 ∧
      (∀ d ∈ (deleteDomainRoute db did aid).snd.domains, d.id ≠ did) ∧
      (deleteDomainRoute db did aid).snd.users = db.users) := by
  constructor
  · intro husers
    simp [deleteDomainRoute, domainDelete, hdom, husers]
  · intro husers
    have hdel : domainDelete db did =
        .ok { db with
          domains := db.domains.filter (fun d => !(d.id == did)),
          groups := db.groups.filter (fun g => !(g.domainId == did)),
          userGroups := db.userGroups.filter (fun ug =>
            !(((db.groups.filter (fun g => g.domainId == did)).map (·.id)).contains ug.groupId)) } := by
      unfold domainDelete
      rw [if_neg (by rw [hdom, husers]; simp)]
    refine ⟨?_, ?_, ?_⟩
    · simp [deleteDomainRoute, hdel]
    · simp only [deleteDomainRoute, hdel]
      intro d hd
      rw [auditLogLog_domains] at hd
      have := (List.mem_filter.mp hd).2
      simpa using this
    · simp only [deleteDomainRoute, hdel]
      rw [auditLogLog_users]

/-- C3 witness: the failing branch on the concrete store with a user, and
the succeeding branch after that user is removed. -/
theorem delete_domain_restrict_witness :
    deleteDomainRoute dbA "d1" "a1" = (.serverError, dbA) ∧
    (deleteDomainRoute (userDelete dbA "u1") "d1" "a1").fst = .success 204 := by
  constructor
  · exact (delete_domain_restrict dbA "d1" "a1" (by decide)).1 (by decide)
  · exact ((delete_domain_restrict (userDelete dbA "u1") "d1" "a1" (by decide)).2 (by decide)).1

/-- C4 counterexample: `bob` is inactive and his stored credential
matches the submitted password; the legacy `/validate` endpoint reports
the credentials VALID — the claim requires an inactive account with a
matching password to be rejected. -/
theorem legacy_inactive_validates_counterexample :
    userBob.isActive = false ∧
    (legacyValidateRoute toyBcrypt 0 dbB (some "bob@acme.example") (some "pw")).fst =
      .result true (some (mkSafe userBob)) := by
  refine ⟨by decide, by decide⟩

/-- C4 amended: `User.validate_credentials` reports wrong password,
inactive account and unknown user uniformly as the same `None`; the legacy
`/validate` endpoint returns the identical `{'valid': false}` response
(and unchanged state) for an unknown user and for a wrong password, so the
two are externally indistinguishable — but it never consults `is_active`:
an inactive account with a matching password is reported valid there. -/
theorem credential_failure_uniformity :
    (∀ db un p, userGetByUsername db un = none →
      userValidateCredentials db un p = none) ∧
    (∀ db un p u, userGetByUsername db un = some u → u.password ≠ p →
      userValidateCredentials db un p = none) ∧
    (∀ db un p u, userGetByUsername db un = some u → u.isActive = false →
      userValidateCredentials db un p = none) ∧
    (∀ (B : BcryptM) (salt : Nat) (db : DB) (em p : String),
      (em == "") = false → (p == "") = false →
      userGetByEmail db em = none →
      legacyValidateRoute B salt db (some em) (some p) = (.result false none, db)) ∧
    (∀ (B : BcryptM) (salt : Nat) (db : DB) (em p : String) (u : UserRow),
      (em == "") = false → (p == "") = false →
      userGetByEmail db em = some u → u.password ≠ p →
      (¬ ∃ s0, u.password = B.hashpw p s0) →
      legacyValidateRoute B salt db (some em) (some p) = (.result false none, db)) ∧
    (∀ (B : BcryptM) (salt : Nat) (db : DB) (em p : String) (u : UserRow),
      (em == "") = false → (p == "") = false →
      userGetByEmail db em = some u → u.isActive = false → u.password = p →
      (legacyValidateRoute B salt db (some em) (some p)).fst =
        .result true (some (mkSafe u))) := by
  refine ⟨?_, ?_, ?_, ?_, ?_, ?_⟩
  · intro db un p hu
    simp [userValidateCredentials, hu]
  · intro db un p u hu hne
    simp [userValidateCredentials, hu, beq_eq_false_iff_ne.mpr hne]
    exact fun hpp => absurd hpp hne
  · intro db un p u hu hact
    simp [userValidateCredentials, hu, hact]
  · intro B salt db em p hem hp hu
    simp [legacyValidateRoute, hem, hp, hu]
  · intro B salt db em p u hem hp hu hne hnd
    have h1 : (u.password == p) = false := beq_eq_false_iff_ne.mpr hne
    have h2 : B.checkpw p u.password = false := by
      cases hc : B.checkpw p u.password with
      | false => rfl
      | true => exact absurd (B.check_sound p u.password hc) hnd
    simp [legacyValidateRoute, hem, hp, hu, h1, h2]
  · intro B salt db em p u hem hp hu hact hpw
    simp [legacyValidateRoute, hem, hp, hu, hpw]

/-- C4 witness: the inactive-account pass-through branch applied at the
concrete store. -/
theorem credential_failure_uniformity_witness :
    (legacyValidateRoute toyBcrypt 0 dbB (some "bob@acme.example") (some "pw")).fst =
      .result true (some (mkSafe userBob)) := by
  exact credential_failure_uniformity.2.2.2.2.2 toyBcrypt 0 dbB "bob@acme.example" "pw"
    userBob (by decide) (by decide) (by decide) (by decide) rfl

/-- C5 counterexample: creating a user with the whitespace-only password
`"   "` does NOT fail — the route bcrypt-hashes the password before the
store's CHECK constraint sees it, so the user row is persisted and the
call answers 201 — the claim requires a ValidationError and no persisted
row. -/
theorem create_user_blank_password_counterexample :
    (createUserRoute toyJson toyBcrypt 3 nogen dbD "u9" (some "carol") (some "   ")
      (some "d1") "" "" "" none [] [] [] [] "a9").fst = .success 201 ∧
    ((createUserRoute toyJson toyBcrypt 3 nogen dbD "u9" (some "carol") (some "   ")
      (some "d1") "" "" "" none [] [] [] [] "a9").snd.users.map
        (fun u2 => u2.password)) = [mkHash "   " 3] := by
  refine ⟨by decide, by decide⟩

/-- C5 amended: domain, role and group creation reject an empty or
whitespace-only name with a 400 ValidationError and persist nothing; user
creation with a whitespace-only username fails via the storage CHECK
constraint surfaced as a 500 internal error (still persisting nothing),
not as a ValidationError; and an empty or whitespace-only password is not
rejected at all — it is bcrypt-hashed and the user row is persisted with a
201. -/
theorem create_validation_behavior :
    (∀ db newId nameRaw desc isDef aid, pyStrip nameRaw = "" →
      createDomainRoute db newId (some nameRaw) desc isDef aid =
        (.clientError 400 "Domain name is required", db)) ∧
    (∀ db newId nameRaw desc aid, pyStrip nameRaw = "" →
      createRoleRoute db newId (some nameRaw) desc aid =
        (.clientError 400 "Role name is required", db)) ∧
    (∀ db newId nameRaw domRaw desc aid, pyStrip nameRaw = "" →
      createGroupRoute db newId (some nameRaw) domRaw desc aid =
        (.clientError 400 "Group name is required", db)) ∧
    (∀ {α : Type} (J : PyJson α) (B : BcryptM) (salt : Nat) (gen : Nat → String)
      (db : DB) (uid un pw dom fn ln dn aid : String),
      sqlNonBlank un = false →
      createUserRoute J B salt gen db uid (some un) (some pw) (some dom) fn ln dn
        none [] [] [] [] aid = (.serverError, db)) ∧
    (∀ {α : Type} (J : PyJson α) (B : BcryptM) (salt : Nat) (gen : Nat → String)
      (db : DB) (uid un pw dom fn ln dn aid : String),
      sqlNonBlank un = true →
      db.users.find? (fun u2 => u2.id == uid) = none →
      db.users.find? (fun u2 => u2.username == un) = none →
      (db.domains.find? (fun d => d.id == dom)).isSome = true →
      (createUserRoute J B salt gen db uid (some un) (some pw) (some dom) fn ln dn
        none [] [] [] [] aid).fst = .success 201 ∧
      (createUserRoute J B salt gen db uid (some un) (some pw) (some dom) fn ln dn
        none [] [] [] [] aid).snd.users.find? (fun u2 => u2.username == un) =
        some { id := uid, username := un, password := B.hashpw pw salt,
               firstName := fn, lastName := ln, displayName := dn,
               domainId := dom, isActive := true }) := by
  refine ⟨?_, ?_, ?_, ?_, ?_⟩
  · intro db newId nameRaw desc isDef aid h
    simp [createDomainRoute, h]
  · intro db newId nameRaw desc aid h
    simp [createRoleRoute, h]
  · intro db newId nameRaw domRaw desc aid h
    simp [createGroupRoute, h]
  · intro α J B salt gen db uid un pw dom fn ln dn aid hbl
    obtain ⟨e, he⟩ := insertUser_blank_username db
      { id := uid, username := un, password := B.hashpw pw salt, firstName := fn,
        lastName := ln, displayName := dn, domainId := dom, isActive := true } hbl
    simp [createUserRoute, userCreate, he]
  · intro α J B salt gen db uid un pw dom fn ln dn aid hnb hpk hun2 hdom
    rcases Option.isSome_iff_exists.mp hdom with ⟨dr, hdr⟩
    have hhash : sqlNonBlank (B.hashpw pw salt) = true :=
      sqlNonBlank_of_dollar2 _ (B.hash_form pw salt)
    have hok : insertUser db
        { id := uid, username := un, password := B.hashpw pw salt, firstName := fn,
          lastName := ln, displayName := dn, domainId := dom, isActive := true } =
        .ok { db with users := db.users ++
          [{ id := uid, username := un, password := B.hashpw pw salt, firstName := fn,
             lastName := ln, displayName := dn, domainId := dom, isActive := true }] } := by
      unfold insertUser
      rw [if_neg (by rw [hpk]; simp), if_neg (by rw [hun2]; simp),
        if_neg (by simp [hnb]), if_neg (by simp [hhash]), if_neg (by rw [hdr]; simp)]
    constructor
    · simp [createUserRoute, userCreate, hok, runAddEmails, runPropSets,
        runRoleAssigns, runGroupAdds]
    · have husers : (createUserRoute J B salt gen db uid (some un) (some pw) (some dom)
          fn ln dn none [] [] [] [] aid).snd.users = db.users ++
          [{ id := uid, username := un, password := B.hashpw pw salt, firstName := fn,
             lastName := ln, displayName := dn, domainId := dom, isActive := true }] := by
        simp [createUserRoute, userCreate, hok, runAddEmails, runPropSets,
          runRoleAssigns, runGroupAdds, auditLogLog_users]
      rw [husers, find?_append_of_none _ _ _ hun2]
      simp [List.find?]

/-- C5 witness: the whitespace-password acceptance branch applied at the
concrete store. -/
theorem create_validation_behavior_witness :
    (createUserRoute toyJson toyBcrypt 3 nogen dbD "u9" (some "carol") (some "   ")
      (some "d1") "" "" "" none [] [] [] [] "a9").fst = .success 201 := by
  exact (create_validation_behavior.2.2.2.2 toyJson toyBcrypt 3 nogen dbD "u9" "carol"
    "   " "d1" "" "" "" "a9" (by decide) (by decide) (by decide) (by decide)).1

def domB : DomainRow :=
  { id := "d2", name := "beta", description := "", isDefault := false }

/-- A store with two domains and nothing else. -/
def dbDD : DB := { emptyDB with domains := [domA, domB] }

/-- C6: group name uniqueness is domain-scoped — creating a second group
with the same `(name, domain_id)` answers a 409 ConflictError and persists
nothing, while creating the same group name in a different domain
succeeds for both groups. -/
theorem group_uniqueness_domain_scoped :
    (∀ db gid nameRaw domRaw desc aid g,
      (pyStrip nameRaw == "") = false → (pyStrip domRaw == "") = false →
      groupGetByName db (pyStrip nameRaw) (pyStrip domRaw) = some g →
      createGroupRoute db gid (some nameRaw) (some domRaw) desc aid =
        (.clientError 409 "Group name already exists in this domain", db)) ∧
    (∀ (db : DB) (g1 g2 name dom1 dom2 desc1 desc2 a1 a2 : String),
      pyStrip name = name → pyStrip dom1 = dom1 → pyStrip dom2 = dom2 →
      (name == "") = false → (dom1 == "") = false → (dom2 == "") = false →
      sqlNonBlank name = true →
      (db.domains.find? (fun d => d.id == dom1)).isSome = true →
      (db.domains.find? (fun d => d.id == dom2)).isSome = true →
      dom1 ≠ dom2 → g1 ≠ g2 →
      db.groups.find? (fun g => g.id == g1) = none →
      db.groups.find? (fun g => g.id == g2) = none →
      db.groups.find? (fun g => g.name == name && g.domainId == dom1) = none →
      db.groups.find? (fun g => g.name == name && g.domainId == dom2) = none →
      (createGroupRoute db g1 (some name) (some dom1) desc1 a1).fst = .success 201 ∧
      (createGroupRoute (createGroupRoute db g1 (some name) (some dom1) desc1 a1).snd
        g2 (some name) (some dom2) desc2 a2).fst = .success 201 ∧
      { id := g1, name := name, description := desc1, domainId := dom1 } ∈
        (createGroupRoute (createGroupRoute db g1 (some name) (some dom1) desc1 a1).snd
          g2 (some name) (some dom2) desc2 a2).snd.groups ∧
      { id := g2, name := name, description := desc2, domainId := dom2 } ∈
        (createGroupRoute (createGroupRoute db g1 (some name) (some dom1) desc1 a1).snd
          g2 (some name) (some dom2) desc2 a2).snd.groups) := by
  constructor
  · intro db gid nameRaw domRaw desc aid g hname hdom hex
    simp [createGroupRoute, hname, hdom, hex]
  · intro db g1 g2 name dom1 dom2 desc1 desc2 a1 a2 hs1 hs2 hs3 hname hd1 hd2 hnb
      hdomS1 hdomS2 hne hgid hg1 hg2 hn1 hn2
    rcases Option.isSome_iff_exists.mp hdomS1 with ⟨dr1, hdr1⟩
    rcases Option.isSome_iff_exists.mp hdomS2 with ⟨dr2, hdr2⟩
    have hins1 : insertGroup db
        { id := g1, name := name, description := desc1, domainId := dom1 } =
        .ok { db with groups := db.groups ++
          [{ id := g1, name := name, description := desc1, domainId := dom1 }] } := by
      unfold insertGroup
      rw [if_neg (by rw [hg1]; simp), if_neg (by rw [hn1]; simp),
        if_neg (by simp [hnb]), if_neg (by rw [hdr1]; simp)]
    have hfst1 : (createGroupRoute db g1 (some name) (some dom1) desc1 a1).fst =
        .success 201 := by
      simp [createGroupRoute, hs1, hs2, hname, hd1, groupGetByName, hn1, groupCreate, hins1]
    have hgroups1 : (createGroupRoute db g1 (some name) (some dom1) desc1 a1).snd.groups =
        db.groups ++ [{ id := g1, name := name, description := desc1, domainId := dom1 }] := by
      simp [createGroupRoute, hs1, hs2, hname, hd1, groupGetByName, hn1, groupCreate, hins1,
        auditLogLog_groups]
    have hdomains1 : (createGroupRoute db g1 (some name) (some dom1) desc1 a1).snd.domains =
        db.domains := by
      simp [createGroupRoute, hs1, hs2, hname, hd1, groupGetByName, hn1, groupCreate, hins1,
        auditLogLog_domains]
    have hdne : (dom1 == dom2) = false := beq_eq_false_iff_ne.mpr hne
    have hgne : (g1 == g2) = false := beq_eq_false_iff_ne.mpr hgid
    generalize hdb1 : (createGroupRoute db g1 (some name) (some dom1) desc1 a1).snd = db1
    rw [hdb1] at hgroups1 hdomains1
    have hn2x : db1.groups.find?
        (fun g => g.name == name && g.domainId == dom2) = none := by
      rw [hgroups1, find?_append_of_none _ _ _ hn2]
      simp [List.find?, hdne]
    have hg2x : db1.groups.find? (fun g => g.id == g2) = none := by
      rw [hgroups1, find?_append_of_none _ _ _ hg2]
      simp [List.find?, hgne]
    have hins2 : insertGroup db1
        { id := g2, name := name, description := desc2, domainId := dom2 } =
        .ok { db1 with groups := db1.groups ++
          [{ id := g2, name := name, description := desc2, domainId := dom2 }] } := by
      unfold insertGroup
      rw [if_neg (by rw [hg2x]; simp), if_neg (by rw [hn2x]; simp),
        if_neg (by simp [hnb]), if_neg (by rw [hdomains1, hdr2]; simp)]
    have hfst2 : (createGroupRoute db1 g2 (some name) (some dom2) desc2 a2).fst =
        .success 201 := by
      simp [createGroupRoute, hs1, hs3, hname, hd2, groupGetByName, hn2x, groupCreate, hins2]
    have hgroups2 : (createGroupRoute db1 g2 (some name) (some dom2) desc2 a2).snd.groups =
        db1.groups ++ [{ id := g2, name := name, description := desc2, domainId := dom2 }] := by
      simp [createGroupRoute, hs1, hs3, hname, hd2, groupGetByName, hn2x, groupCreate, hins2,
        auditLogLog_groups]
    refine ⟨hfst1, hfst2, ?_, ?_⟩
    · rw [hgroups2, hgroups1]; simp
    · rw [hgroups2]; simp

/-- C6 witness: group `eng` created in domains `d1` and `d2` — both calls
succeed. -/
theorem group_uniqueness_domain_scoped_witness :
    (createGroupRoute dbDD "g1" (some "eng") (some "d1") "" "a1").fst = .success 201 ∧
    (createGroupRoute (createGroupRoute dbDD "g1" (some "eng") (some "d1") "" "a1").snd
      "g2" (some "eng") (some "d2") "" "a2").fst = .success 201 := by
  have h := group_uniqueness_domain_scoped.2 dbDD "g1" "g2" "eng" "d1" "d2" "" "" "a1" "a2"
    (by decide) (by decide) (by decide) (by decide) (by decide) (by decide) (by decide)
    (by decide) (by decide) (by decide) (by decide) (by decide) (by decide) (by decide)
    (by decide)
  exact ⟨h.1, h.2.1⟩

/-- C7: after `User.delete(user_id)` (which always commits — nothing
references `users` with RESTRICT), the `get_by_user` queries for the
user's emails, properties, roles and groups all return empty: the cascade
leaves no orphaned child rows. -/
theorem user_delete_cascades {α : Type} (J : PyJson α) (db : DB) (uid : String) :
    userEmailGetByUser (userDelete db uid) uid = [] ∧
    userPropGetByUser J (userDelete db uid) uid = [] ∧
    userRoleGetByUser (userDelete db uid) uid = [] ∧
    userGroupGetByUser (userDelete db uid) uid = [] := by
  refine ⟨?_, ?_, ?_, ?_⟩
  · unfold userEmailGetByUser
    rw [userDelete_emails, filter_filter_not]
  · unfold userPropGetByUser
    rw [userDelete_props, filter_filter_not]
    rfl
  · unfold userRoleGetByUser
    rw [userDelete_roles, filter_filter_not]
    rfl
  · unfold userGroupGetByUser
    rw [userDelete_groups, filter_filter_not]
    rfl

/-- C7 witness: the cascade at a concrete store. -/
theorem user_delete_cascades_witness :
    userEmailGetByUser (userDelete dbA "u1") "u1" = [] :=
  (user_delete_cascades toyJson dbA "u1").1

/-- C8: `AuditLog.log` swallows its own storage failure — the call
returns with the store unchanged instead of raising — and an audit write
never touches entity tables; in particular `DELETE /api/users/<id>` whose
audit write fails still answers 204 with the user deletion committed. -/
theorem audit_failure_isolated :
    (∀ db r, auditLogLog db r false = db) ∧
    (∀ db r ok, (auditLogLog db r ok).users = db.users ∧
      (auditLogLog db r ok).domains = db.domains ∧
      (auditLogLog db r ok).groups = db.groups) ∧
    (∀ db uid aid u, userGetRow db uid = some u →
      deleteUserRoute db uid aid false = (.success 204, userDelete db uid)) := by
  refine ⟨?_, ?_, ?_⟩
  · intro db r
    rfl
  · intro db r ok
    exact ⟨auditLogLog_users db r ok, auditLogLog_domains db r ok, auditLogLog_groups db r ok⟩
  · intro db uid aid u hu
    simp [deleteUserRoute, hu,
      show ∀ (d : DB) (r : AuditRow), auditLogLog d r false = d from fun _ _ => rfl]

/-- C8 witness: deleting `bob` with a failing audit write still commits
the deletion and answers 204. -/
theorem audit_failure_isolated_witness :
    deleteUserRoute dbB "u2" "a1" false = (.success 204, userDelete dbB "u2") :=
  audit_failure_isolated.2.2 dbB "u2" "a1" userBob (by decide)

/-- The user row `init_seed_data` builds for a record it imports: the
`password` field is the record's plaintext (`'ChangeMe123!'` when the
record has none), passed to `User.create` verbatim. -/
def seedUserRow (gen : Nat → String) (domId : String) (n : Nat) (r : SeedRecord) : UserRow :=
  { id := gen n,
    username := match r.email with | some e => e | none => r.preferredUsername.getD "",
    password := r.password.getD "ChangeMe123!",
    firstName := r.givenName.getD "",
    lastName := r.familyName.getD "",
    displayName := match r.name with
      | some nm => nm
      | none => pyStrip (r.givenName.getD "" ++ " " ++ r.familyName.getD ""),
    domainId := domId, isActive := true }

/-- A concrete legacy import record carrying the plaintext password
`"hunter2"`. -/
def seedRec : SeedRecord :=
  { email := some "bob@example.com", preferredUsername := none,
    password := some "hunter2", givenName := some "Bob", familyName := none,
    name := none, props := [] }

/-- C9 counterexample: importing a record whose plaintext password is
`"hunter2"` persists exactly that string in the user row's password field
— not a salted bcrypt digest, which is what the claim requires. -/
theorem seed_plaintext_counterexample :
    (initSeedData nogen emptyDB [seedRec]).toOption.map
      (fun db => db.users.map (fun u2 => u2.password)) = some ["hunter2"] ∧
    startsWithDollar2 "hunter2" = false := by
  refine ⟨by decide, by decide⟩

/-- C9 amended: when the seed loop creates a user for a record, the
persisted user row stores the record's password exactly as given in the
seed file (default `'ChangeMe123!'`) — no hashing happens on this path;
plaintext credentials are upgraded only later, by the legacy validate
endpoint's write-on-read migration. -/
theorem seed_one_stores_plaintext (gen : Nat → String) (domId admId usrId : String)
    (db : DB) (n : Nat) (r : SeedRecord) (db2 : DB) (n2 : Nat)
    (habs : userGetByUsername db (r.email.getD "") = none)
    (hseed : seedOne gen domId admId usrId db n r = .ok (db2, n2)) :
    db2.users = db.users ++ [seedUserRow gen domId n r] := by
  unfold seedOne at hseed
  rw [habs] at hseed
  dsimp only at hseed
  cases hc : userCreate db (gen n)
      (match r.email with | some e => e | none => r.preferredUsername.getD "")
      (r.password.getD "ChangeMe123!") domId (r.givenName.getD "") (r.familyName.getD "")
      (match r.name with
        | some nm => nm
        | none => pyStrip (r.givenName.getD "" ++ " " ++ r.familyName.getD "")) with
  | error e =>
    rw [hc] at hseed
    simp at hseed
  | ok dbc =>
    rw [hc] at hseed
    dsimp only at hseed
    have hcu : dbc.users = db.users ++ [seedUserRow gen domId n r] := by
      have h2 := insertUser_ok _ _ _ hc
      rw [h2]
      rfl
    cases hre : r.email with
    | some em =>
      rw [hre] at hseed
      dsimp only at hseed
      cases hea : userEmailAdd dbc (gen (n + 1)) (gen n) em true with
      | error e =>
        rw [hea] at hseed
        simp at hseed
      | ok db3 =>
        rw [hea] at hseed
        dsimp only at hseed
        have h3 : db3.users = dbc.users := userEmailAdd_ok_users _ _ _ _ _ _ hea
        cases hrp : runSeedProps gen (gen n) r.props db3 (n + 2) with
        | error dbE =>
          rw [hrp] at hseed
          simp at hseed
        | ok pr =>
          obtain ⟨db4, n4⟩ := pr
          rw [hrp] at hseed
          dsimp only at hseed
          have h4 := runSeedProps_ok_users gen (gen n) r.props db3 (n + 2) db4 n4 hrp
          cases hra : userRoleAssign db4 (gen n4) (gen n)
              (if em == "admin@localhost" then admId else usrId) with
          | error e =>
            rw [hra] at hseed
            simp at hseed
          | ok db5 =>
            rw [hra] at hseed
            simp only [Except.ok.injEq, Prod.mk.injEq] at hseed
            rw [← hseed.1, insertUserRole_ok_users _ _ _ hra, h4, h3, hcu]
    | none =>
      rw [hre] at hseed
      dsimp only at hseed
      cases hrp : runSeedProps gen (gen n) r.props dbc (n + 1) with
      | error dbE =>
        rw [hrp] at hseed
        simp at hseed
      | ok pr =>
        obtain ⟨db4, n4⟩ := pr
        rw [hrp] at hseed
        dsimp only at hseed
        have h4 := runSeedProps_ok_users gen (gen n) r.props dbc (n + 1) db4 n4 hrp
        cases hra : userRoleAssign db4 (gen n4) (gen n)
            (if r.preferredUsername.getD "" == "admin@localhost" then admId else usrId) with
        | error e =>
          rw [hra] at hseed
          simp at hseed
        | ok db5 =>
          rw [hra] at hseed
          simp only [Except.ok.injEq, Prod.mk.injEq] at hseed
          rw [← hseed.1, insertUserRole_ok_users _ _ _ hra, h4, hcu]

/-- A store holding the default domain and the two baseline roles the
seed loop assigns. -/
def dbSeed : DB :=
  { dbD with roles := [{ id := "ra", name := "admin", description := "" },
                       { id := "ru", name := "user", description := "" }] }

/-- C9 witness: the per-record creation step at the concrete record
persists the plaintext `"hunter2"`. -/
theorem seed_one_stores_plaintext_witness :
    (seedOne nogen "d1" "ra" "ru" dbSeed 0 seedRec).toOption.map (fun x => x.1.users) =
      some (dbSeed.users ++ [seedUserRow nogen "d1" 0 seedRec]) := by
  cases h : seedOne nogen "d1" "ra" "ru" dbSeed 0 seedRec with
  | error d =>
    have hok : (seedOne nogen "d1" "ra" "ru" dbSeed 0 seedRec).toOption.isSome = true := by
      decide
    rw [h] at hok
    simp [Except.toOption] at hok
  | ok pr =>
    obtain ⟨d2, n2⟩ := pr
    have husers := seed_one_stores_plaintext nogen "d1" "ra" "ru" dbSeed 0 seedRec d2 n2
      (by decide) h
    exact congrArg some husers

lemma userPropSetStr_find (db : DB) (pid uid key vs : String) (db2 : DB)
    (h : userPropSetStr db pid uid key vs = .ok db2) :
    ∃ row, db2.userProps.find? (fun p => p.userId == uid && p.key == key) = some row ∧
      row.value = vs := by
  unfold userPropSetStr at h
  cases hf : db.userProps.find? (fun p => p.userId == uid && p.key == key) with
  | some p0 =>
    rw [hf] at h
    dsimp only at h
    injection h with h2
    rw [← h2]
    show ∃ row, (db.userProps.map (fun p =>
      if p.userId == uid && p.key == key then { p with value := vs } else p)).find?
        (fun p => p.userId == uid && p.key == key) = some row ∧ row.value = vs
    rw [find?_map_of_pred]
    · rw [hf]
      have hp0 := List.find?_some hf
      refine ⟨_, rfl, ?_⟩
      simp [hp0]
    · intro x
      by_cases hx : (x.userId == uid && x.key == key) = true <;> simp [hx]
  | none =>
    rw [hf] at h
    dsimp only at h
    unfold insertProp at h
    split at h
    · exact absurd h (by simp)
    · split at h
      · exact absurd h (by simp)
      · split at h
        · exact absurd h (by simp)
        · injection h with h2
          rw [← h2]
          show ∃ row, (db.userProps ++
            [({ id := pid, userId := uid, key := key, value := vs } : PropRow)]).find?
              (fun p => p.userId == uid && p.key == key) = some row ∧ row.value = vs
          rw [find?_append_of_none _ _ _ hf]
          refine ⟨{ id := pid, userId := uid, key := key, value := vs }, ?_, rfl⟩
          simp [List.find?]

/-- C10: a value set through `UserProperty.set` and read back through
`UserProperty.get` round-trips through the JSON encoding whenever the
value is not a string; a string value is stored raw, and when it itself
parses as JSON (such as `"true"` or `"123"`), `get` returns the decoded
value rather than the original string — the round-trip fails there. -/
theorem user_property_set_get_roundtrip {α : Type} (J : PyJson α) (db db2 : DB)
    (pid uid key : String) (v : α)
    (hset : userPropSet J db pid uid key v = .ok db2) :
    (J.isStr v = none → userPropGet J db2 uid key = some v) ∧
    (∀ s j, v = J.ofStr s → J.decode s = some j →
      userPropGet J db2 uid key = some j ∧
      (j ≠ J.ofStr s → userPropGet J db2 uid key ≠ some v)) := by
  unfold userPropSet at hset
  obtain ⟨row, hfind, hval⟩ := userPropSetStr_find _ _ _ _ _ _ hset
  constructor
  · intro hstr
    have hvs : pyJsonValueStr J v = J.encode v := by simp [pyJsonValueStr, hstr]
    unfold userPropGet
    rw [hfind]
    dsimp only
    rw [hval, hvs, J.roundtrip v hstr]
  · intro s j hvstr hdec
    have hvs2 : pyJsonValueStr J v = s := by simp [pyJsonValueStr, hvstr, J.isStr_ofStr]
    unfold userPropGet
    rw [hfind]
    dsimp only
    rw [hval, hvs2, hdec]
    refine ⟨rfl, fun hne hc => ?_⟩
    rw [hvstr] at hc
    exact hne (Option.some.inj hc)

/-- The store after `UserProperty.set(u1, k, True)` — stored as the JSON
text `true`. -/
def dbP : DB :=
  { dbU with userProps := [{ id := "p1", userId := "u1", key := "k", value := "true" }] }

/-- C10 witness: the boolean `True` set and read back at the concrete
store returns `True` — and reading the stored text `"true"` decodes as the
boolean, exercising the string-parse caveat. -/
theorem user_property_set_get_roundtrip_witness :
    userPropGet toyJson dbP "u1" "k" = some (ToyVal.vbool true) := by
  have h := user_property_set_get_roundtrip toyJson dbU dbP "p1" "u1" "k"
    (ToyVal.vbool true) (by rfl)
  exact h.1 rfl

end DirSvc
